import Mathlib

/-!
Verification of the Coolify provisioning core of `skit-fast-cli`
(`src/utils/coolify.ts`), shallowly embedded in Lean 4.

The embedding covers:
* `parseDockerImage` — pure image-reference parsing (lists of characters
  stand for JavaScript strings);
* `createServiceWithFallback` — the endpoint-negotiation loop, modelled as a
  function of the ordered candidate table and an oracle assigning an HTTP
  response (or a transport failure) to every request index, returning the
  negotiation outcome together with the full trace of issued POST requests;
* `getServerUuid`, `getDefaultEnvironment`, `getDefaultDestinationUuid` and
  the payload builder of `createApplicationWithDockerImage`;
* `setupProjectInfrastructure` — the orchestrator, modelled over an oracle
  assigning an outcome to every service-creation call, returning the outcome
  together with the ordered list of attempted steps.

JavaScript objects that flow into request bodies are modelled as association
lists of field name / scalar value pairs; JavaScript truthiness (`''`,
`undefined`, `0`, `false` are falsy) is modelled explicitly.
-/

namespace SkitFastCli

/-! ## Strings as character lists: `lastIndexOf` -/

/-- `String.prototype.lastIndexOf` for a single character, on the character
list of the string: the largest index holding `c`, if any. -/
def lastIndexOf (c : Char) : List Char → Option Nat
  | [] => none
  | x :: xs =>
    match lastIndexOf c xs with
    | some i => some (i + 1)
    | none => if x = c then some 0 else none

theorem lastIndexOf_isSome_of_mem {c : Char} {l : List Char} (h : c ∈ l) :
    (lastIndexOf c l).isSome := by
  induction l with
  | nil => cases h
  | cons x xs ih =>
    rcases List.mem_cons.mp h with h | h
    · unfold lastIndexOf
      cases hx : lastIndexOf c xs <;> simp [h]
    · unfold lastIndexOf
      have := ih h
      cases hx : lastIndexOf c xs <;> simp_all

theorem lastIndexOf_get {c : Char} {l : List Char} {i : Nat}
    (h : lastIndexOf c l = some i) : l.get? i = some c := by
  induction l generalizing i with
  | nil => simp [lastIndexOf] at h
  | cons x xs ih =>
    unfold lastIndexOf at h
    cases hx : lastIndexOf c xs with
    | some j =>
      rw [hx] at h
      cases h
      simpa using ih hx
    | none =>
      rw [hx] at h
      by_cases hxc : x = c
      · simp [hxc] at h
        subst hxc
        cases h
        simp
      · simp [hxc] at h

theorem lastIndexOf_greatest {c : Char} {l : List Char} {i j : Nat}
    (h : lastIndexOf c l = some i) (hj : l.get? j = some c) : j ≤ i := by
  induction l generalizing i j with
  | nil => simp at hj
  | cons x xs ih =>
    unfold lastIndexOf at h
    cases hx : lastIndexOf c xs with
    | some m =>
      rw [hx] at h
      cases h
      cases j with
      | zero => exact Nat.zero_le _
      | succ j' =>
        simp only [List.get?_cons_succ] at hj
        exact Nat.succ_le_succ (ih hx hj)
    | none =>
      rw [hx] at h
      by_cases hxc : x = c
      · simp [hxc] at h
        cases j with
        | zero => omega
        | succ j' =>
          simp only [List.get?_cons_succ] at hj
          have : (lastIndexOf c xs).isSome :=
            lastIndexOf_isSome_of_mem (List.get?_mem hj)
          rw [hx] at this
          simp at this
      · simp [hxc] at h

theorem lastIndexOf_none {c : Char} {l : List Char} {j : Nat}
    (h : lastIndexOf c l = none) : l.get? j ≠ some c := by
  intro hj
  have := lastIndexOf_isSome_of_mem (List.get?_mem hj)
  rw [h] at this
  simp at this

/-! ## `parseDockerImage` (source: `src/utils/coolify.ts`, lines 34-54) -/

/-- `parseDockerImage`, translated from the source.  The search for the tag
separator is bounded by the last `/`; the last `:` of the whole string is the
candidate separator; if it is missing or lies before the boundary the whole
string is the name and the tag defaults to `latest`; a candidate tag that
itself contains a `/` also yields the `latest` default. -/
def parseDockerImageL (dockerImage : List Char) : List Char × List Char :=
  let searchStartIndex := (lastIndexOf '/' dockerImage).getD 0
  match lastIndexOf ':' dockerImage with
  | none => (dockerImage, "latest".data)
  | some colonIndex =>
    if colonIndex < searchStartIndex then
      (dockerImage, "latest".data)
    else
      let name := dockerImage.take colonIndex
      let tag := dockerImage.drop (colonIndex + 1)
      if tag.contains '/' then
        (dockerImage, "latest".data)
      else
        (name, tag)

/-- `parseDockerImage` on Lean strings. -/
def parseDockerImage (s : String) : String × String :=
  let p := parseDockerImageL s.data
  (String.mk p.1, String.mk p.2)

/-- The boundary used by the parser: index of the last `/`, or `0`. -/
def slashBoundary (l : List Char) : Nat := (lastIndexOf '/' l).getD 0

/-- A qualifying tag separator: a `:` at or after the last-slash boundary. -/
def IsQualColon (l : List Char) (i : Nat) : Prop :=
  l.get? i = some ':' ∧ slashBoundary l ≤ i

/-- Splitting a list at a known element: `take i ++ elem :: drop (i+1)`. -/
theorem take_cons_drop {l : List Char} {i : Nat} {c : Char}
    (h : l.get? i = some c) : l.take i ++ c :: l.drop (i + 1) = l := by
  induction l generalizing i with
  | nil => simp at h
  | cons x xs ih =>
    cases i with
    | zero =>
      simp only [List.get?_cons_zero, Option.some.injEq] at h
      subst h
      simp
    | succ i' =>
      simp only [List.get?_cons_succ] at h
      simpa using ih h

theorem string_ext {s t : String} (h : s.data = t.data) : s = t := by
  cases s; cases t; exact congrArg String.mk h

/-- A qualifying colon (at or after the last-slash boundary) forces the
parser's "tag contains `/`" guard to be false: every `/` lies at or before
the boundary, hence before the colon. -/
theorem no_slash_in_tag {l : List Char} {j : Nat}
    (hc : lastIndexOf ':' l = some j) (hb : slashBoundary l ≤ j) :
    (l.drop (j + 1)).contains '/' = false := by
  cases h : (l.drop (j + 1)).contains '/' with
  | false => rfl
  | true =>
  exfalso
  have hmem : '/' ∈ l.drop (j + 1) := List.mem_of_elem_eq_true h
  obtain ⟨k, hk⟩ := List.mem_iff_get?.mp hmem
  rw [List.get?_drop] at hk
  have hsl : (lastIndexOf '/' l).isSome :=
    lastIndexOf_isSome_of_mem (List.get?_mem hk)
  obtain ⟨b, hbdef⟩ := Option.isSome_iff_exists.mp hsl
  have hle : j + 1 + k ≤ b := lastIndexOf_greatest hbdef hk
  have : slashBoundary l = b := by simp [slashBoundary, hbdef]
  omega

/-- **C6.** `parseDockerImage` is a pure function that bounds its search at
the last `/`, takes the last `:` after that boundary as the tag separator,
and when no qualifying colon exists returns the whole string as the name
with tag `latest` (the source's further "candidate tag contains a `/`"
guard, which would also return the whole string with tag `latest`, can
never fire once a qualifying colon exists — final conjunct).  In
particular `"registry.example.com:5000/app:v2"` parses to
`("registry.example.com:5000/app", "v2")` and
`"registry.example.com:5000/app"` parses to itself with tag `"latest"`. -/
theorem parseDockerImage_spec :
    parseDockerImage "registry.example.com:5000/app:v2" =
      ("registry.example.com:5000/app", "v2") ∧
    parseDockerImage "registry.example.com:5000/app" =
      ("registry.example.com:5000/app", "latest") ∧
    (∀ s : String, (∀ i, ¬ IsQualColon s.data i) →
      parseDockerImage s = (s, "latest")) ∧
    (∀ s : String, ∀ j, IsQualColon s.data j →
      (∀ i, s.data.get? i = some ':' → i ≤ j) →
      parseDockerImage s = (String.mk (s.data.take j), String.mk (s.data.drop (j + 1)))) ∧
    (∀ l : List Char, ∀ j, lastIndexOf ':' l = some j → slashBoundary l ≤ j →
      (l.drop (j + 1)).contains '/' = false) := by
  refine ⟨by decide, by decide, ?_, ?_, fun l j hc hb => no_slash_in_tag hc hb⟩
  · intro s h
    obtain ⟨l⟩ := s
    unfold parseDockerImage parseDockerImageL
    cases hc : lastIndexOf ':' l with
    | none => rfl
    | some j =>
      have hg := lastIndexOf_get hc
      have hnb : ¬ ((lastIndexOf '/' l).getD 0 ≤ j) := fun hb => h j ⟨hg, hb⟩
      simp only [hc]
      rw [if_pos (by omega)]
  · intro s j hq hmax
    obtain ⟨l⟩ := s
    obtain ⟨hg, hb⟩ := hq
    have hsome : (lastIndexOf ':' l).isSome :=
      lastIndexOf_isSome_of_mem (List.get?_mem hg)
    obtain ⟨m, hm⟩ := Option.isSome_iff_exists.mp hsome
    have hjm : j ≤ m := lastIndexOf_greatest hm hg
    have hmj : m ≤ j := hmax m (lastIndexOf_get hm)
    have hmeq : m = j := Nat.le_antisymm hmj hjm
    subst hmeq
    have hslash := no_slash_in_tag hm hb
    unfold parseDockerImage parseDockerImageL
    simp only [hm]
    rw [if_neg (by simpa [slashBoundary] using hb : ¬ m < (lastIndexOf '/' l).getD 0)]
    rw [if_neg (by intro hcontr; rw [hslash] at hcontr; exact Bool.false_ne_true hcontr)]

theorem parseDockerImage_spec_witness :
    ("a/b:c".data.drop 4).contains '/' = false :=
  parseDockerImage_spec.2.2.2.2 "a/b:c".data 3 (by decide) (by decide)

/-- **C10.** For every input string, `parseDockerImage` returns `(name, tag)`
with either `name = s` and `tag = "latest"`, or `name ++ ":" ++ tag = s`:
parsing never drops or invents characters of the image reference. -/
theorem parseDockerImage_roundtrip (s : String) :
    ((parseDockerImage s).1 = s ∧ (parseDockerImage s).2 = "latest") ∨
    (parseDockerImage s).1 ++ ":" ++ (parseDockerImage s).2 = s := by
  obtain ⟨l⟩ := s
  unfold parseDockerImage parseDockerImageL
  cases hc : lastIndexOf ':' l with
  | none => exact Or.inl ⟨rfl, rfl⟩
  | some j =>
    simp only [hc]
    by_cases hlt : j < (lastIndexOf '/' l).getD 0
    · rw [if_pos hlt]
      exact Or.inl ⟨rfl, rfl⟩
    · rw [if_neg hlt]
      by_cases hsl : (l.drop (j + 1)).contains '/'
      · rw [if_pos hsl]
        exact Or.inl ⟨rfl, rfl⟩
      · rw [if_neg hsl]
        right
        refine string_ext ?_
        show (l.take j ++ [':']) ++ l.drop (j + 1) = l
        rw [List.append_assoc]
        exact take_cons_drop (lastIndexOf_get hc)

/-! ## JSON-ish payloads and JavaScript truthiness -/

/-- Scalar JSON values appearing in the request bodies relevant here. -/
inductive JVal where
  | str (v : String)
  | num (v : Int)
  | bool (v : Bool)
deriving DecidableEq, Repr

/-- A request body: an association list of field name / value pairs. -/
abbrev Payload := List (String × JVal)

/-- JavaScript truthiness of a field value (`''`, `0`, `false` are falsy). -/
def truthyV : JVal → Bool
  | .str s => !(s == "")
  | .num n => !(n == 0)
  | .bool b => b

/-- Field access `p.k` (`none` models JavaScript `undefined`). -/
def lookupField (p : Payload) (k : String) : Option JVal :=
  (p.find? (fun kv => kv.1 == k)).map (·.2)

/-- JavaScript `x || y` where `x` is a field access and `y` a present value. -/
def jsOr (x : Option JVal) (y : JVal) : JVal :=
  match x with
  | some v => if truthyV v then v else y
  | none => y

/-- JavaScript `x || y` where both operands are field accesses. -/
def jsOrF (x y : Option JVal) : Option JVal :=
  match x with
  | some v => if truthyV v then some v else y
  | none => y

/-- Template-literal rendering of a possibly-missing field value
(JavaScript renders a missing field as `undefined`). -/
def renderField (x : Option JVal) : String :=
  match x with
  | some (.str s) => s
  | some (.num n) => toString n
  | some (.bool b) => if b then "true" else "false"
  | none => "undefined"

/-- JavaScript object spread-with-override `{...p, k: v}`. -/
def setField (p : Payload) (k : String) (v : JVal) : Payload :=
  if p.any (fun kv => kv.1 == k) then
    p.map (fun kv => if kv.1 == k then (k, v) else kv)
  else p ++ [(k, v)]

/-! ## The HTTP layer (axios semantics) -/

structure HttpResponse where
  status : Nat
  body : String
deriving DecidableEq, Repr

/-- An axios rejection: carries the response for a non-2xx status, or no
response at all for a transport failure. -/
structure AxiosError where
  response : Option HttpResponse
deriving DecidableEq, Repr

/-- The test environment for one negotiation run: the HTTP response to the
`k`-th request issued (`none` models a transport failure). -/
def Env := Nat → Option HttpResponse

def is2xx (s : Nat) : Bool := 200 ≤ s && s < 300

inductive PostResult where
  | success (r : HttpResponse)
  | failure (e : AxiosError)
deriving DecidableEq

/-- axios `post`: resolves on a 2xx status, rejects with the response
attached on any other status, rejects without a response on transport
failure. -/
def axiosPost (env : Env) (k : Nat) : PostResult :=
  match env k with
  | none => .failure ⟨none⟩
  | some r => if is2xx r.status then .success r else .failure ⟨some r⟩

/-! ## `createServiceWithFallback` (source: lines 283-396) -/

/-- One row of the candidate table: endpoint path, request body, and the
descriptive name used in log output. -/
structure Endpoint where
  url : String
  payload : Payload
  name : String
deriving DecidableEq

/-- A POST request issued during negotiation, tagged with the candidate
index it was issued for and whether it is the simplified-payload retry. -/
structure Request where
  candidate : Nat
  isRetry : Bool
  url : String
  payload : Payload
deriving DecidableEq, Repr

/-- What `createServiceWithFallback` throws when every candidate fails:
the recorded last axios error, or a generic `Error` if none was recorded. -/
inductive ThrownError where
  | axios (e : AxiosError)
  | generic (msg : String)
deriving DecidableEq

deriving instance DecidableEq for Except

/-- The `dockerImagePayload` object built at the top of
`createServiceWithFallback` (source lines 287-293). -/
def dockerImagePayload (projectId serviceName : String)
    (newFormatPayload legacyFormatPayload : Payload) : Payload :=
  [("name", JVal.str serviceName),
   ("project_uuid", JVal.str projectId),
   ("image", jsOr (lookupField newFormatPayload "image")
      (JVal.str (renderField (lookupField legacyFormatPayload "docker_registry_image_name")
        ++ ":" ++
        renderField (lookupField legacyFormatPayload "docker_registry_image_tag"))))]
  ++ (match lookupField legacyFormatPayload "server_uuid" with
      | some v => if truthyV v then [("server_uuid", v)] else []
      | none => [])

/-- The simplified payload used for the single 422 retry (source lines
326-331); a JavaScript-`undefined` `docker_image` is dropped, matching
what JSON serialization puts on the wire. -/
def simplifiedPayload (projectId serviceName : String)
    (newFormatPayload endpointPayload : Payload) : Payload :=
  [("name", JVal.str serviceName)]
  ++ (match jsOrF (lookupField newFormatPayload "image")
        (lookupField endpointPayload "docker_registry_image_name") with
      | some v => [("docker_image", v)]
      | none => [])
  ++ [("project_uuid", JVal.str projectId)]
  ++ (match lookupField endpointPayload "docker_registry_image_tag" with
      | some v => if truthyV v then [("docker_image_tag", v)] else []
      | none => [])

/-- The ordered candidate table of `createServiceWithFallback`
(source lines 295-302). -/
def endpointsToTry (projectId serviceName : String)
    (newFormatPayload legacyFormatPayload : Payload) : List Endpoint :=
  [⟨"/api/v1/applications/dockerimage",
    dockerImagePayload projectId serviceName newFormatPayload legacyFormatPayload,
    "docker image applications endpoint (correct API)"⟩,
   ⟨"/api/v1/applications",
    setField legacyFormatPayload "project_uuid" (JVal.str projectId),
    "direct applications endpoint"⟩,
   ⟨"/api/v1/projects/" ++ projectId ++ "/applications",
    legacyFormatPayload,
    "project applications endpoint"⟩,
   ⟨"/api/v1/services",
    setField newFormatPayload "project_id" (JVal.str projectId),
    "direct services endpoint"⟩,
   ⟨"/api/v1/projects/" ++ projectId ++ "/services",
    newFormatPayload,
    "project services endpoint"⟩,
   ⟨"/applications",
    setField legacyFormatPayload "project_uuid" (JVal.str projectId),
    "legacy applications endpoint"⟩]

/-- Candidates paired with their position in the table (the for-loop's
implicit index). -/
def withIdx (n : Nat) : List Endpoint → List (Nat × Endpoint)
  | [] => []
  | e :: es => (n, e) :: withIdx (n + 1) es

def statusOf (e : AxiosError) : Option Nat := e.response.map (·.status)

/-- The axios error produced by request index `k` (used for `lastError`). -/
def errOf (env : Env) (k : Nat) : AxiosError :=
  match env k with
  | none => ⟨none⟩
  | some r => ⟨some r⟩

/-- The negotiation loop of `createServiceWithFallback` (source lines
304-350 and the final `throw` at 395), over the remaining candidates, the
index of the next HTTP request, and the recorded `lastError`.  Returns the
outcome together with the trace of POST requests issued from this point. -/
def createServiceGo (env : Env) (projectId serviceName : String)
    (newFormatPayload : Payload) :
    List (Nat × Endpoint) → Nat → Option AxiosError →
    Except ThrownError String × List Request
  | [], _, lastError =>
    (Except.error (match lastError with
      | some e => ThrownError.axios e
      | none => ThrownError.generic ("Failed to create service " ++ serviceName)), [])
  | (i, e) :: rest, k, _ =>
    let req : Request := ⟨i, false, e.url, e.payload⟩
    match axiosPost env k with
    | .success r => (Except.ok r.body, [req])
    | .failure err =>
      if statusOf err = some 422 then
        let req2 : Request :=
          ⟨i, true, e.url, simplifiedPayload projectId serviceName newFormatPayload e.payload⟩
        match axiosPost env (k + 1) with
        | .success r2 => (Except.ok r2.body, [req, req2])
        | .failure _ =>
          let next := createServiceGo env projectId serviceName newFormatPayload rest (k + 2) (some err)
          (next.1, req :: req2 :: next.2)
      else
        let next := createServiceGo env projectId serviceName newFormatPayload rest (k + 1) (some err)
        (next.1, req :: next.2)

/-- `createServiceWithFallback(projectId, serviceName, newFormatPayload,
legacyFormatPayload)` run against `env`: outcome and request trace. -/
def createServiceWithFallback (env : Env) (projectId serviceName : String)
    (newFormatPayload legacyFormatPayload : Payload) :
    Except ThrownError String × List Request :=
  createServiceGo env projectId serviceName newFormatPayload
    (withIdx 0 (endpointsToTry projectId serviceName newFormatPayload legacyFormatPayload))
    0 none

/-! ### Request-index bookkeeping

A failing candidate consumes one request, or two when its primary response
is a 422 (the simplified retry).  `posAt env k j` is the request index of
candidate `j`'s primary POST, counting from a run whose first request has
index `k`, as long as candidates `0..j-1` all fail. -/

def statusAt (env : Env) (k : Nat) : Option Nat := (env k).map (·.status)

def consumedAt (env : Env) (k : Nat) : Nat :=
  if statusAt env k = some 422 then 2 else 1

def posAt (env : Env) : Nat → Nat → Nat
  | k, 0 => k
  | k, j + 1 => posAt env (k + consumedAt env k) j

def is2xxAt (env : Env) (k : Nat) : Bool :=
  match env k with
  | some r => is2xx r.status
  | none => false

/-- The candidate whose primary request has index `k` fails: its primary
response is not 2xx, and if the primary is a 422 the simplified retry at
`k + 1` is not 2xx either. -/
def candidateFails (env : Env) (k : Nat) : Bool :=
  !is2xxAt env k && (!(statusAt env k == some 422) || !is2xxAt env (k + 1))

/-- The requests issued for a block of candidates that all fail. -/
def failTrace (env : Env) (projectId serviceName : String)
    (newFormatPayload : Payload) :
    Nat → List (Nat × Endpoint) → List Request
  | _, [] => []
  | k, (i, e) :: rest =>
    let req : Request := ⟨i, false, e.url, e.payload⟩
    if statusAt env k = some 422 then
      req ::
        ⟨i, true, e.url, simplifiedPayload projectId serviceName newFormatPayload e.payload⟩ ::
        failTrace env projectId serviceName newFormatPayload (k + 2) rest
    else
      req :: failTrace env projectId serviceName newFormatPayload (k + 1) rest

/-- The `lastError` recorded after `i` failing candidates, starting from
request index `k` with initial value `le`. -/
def leAfter (env : Env) (k : Nat) (le : Option AxiosError) : Nat → Option AxiosError
  | 0 => le
  | j + 1 => some (errOf env (posAt env k j))

/-! ### Step lemmas for the negotiation loop -/

theorem statusOf_errOf (env : Env) (k : Nat) : statusOf (errOf env k) = statusAt env k := by
  unfold statusOf errOf statusAt
  cases env k <;> rfl

theorem axiosPost_failure (env : Env) (k : Nat) (h : is2xxAt env k = false) :
    axiosPost env k = .failure (errOf env k) := by
  unfold is2xxAt at h
  cases henv : env k with
  | none => simp [axiosPost, errOf, henv]
  | some r =>
    rw [henv] at h
    simp only [] at h
    simp [axiosPost, errOf, henv, h]

theorem createServiceGo_cons_success (env : Env) (pid sn : String) (np : Payload)
    (n : Nat) (e : Endpoint) (rest : List (Nat × Endpoint)) (k : Nat)
    (le : Option AxiosError) (r : HttpResponse)
    (henv : env k = some r) (h2 : is2xx r.status = true) :
    createServiceGo env pid sn np ((n, e) :: rest) k le =
      (Except.ok r.body, [⟨n, false, e.url, e.payload⟩]) := by
  have hpost : axiosPost env k = .success r := by
    simp [axiosPost, henv, h2]
  simp only [createServiceGo, hpost]

theorem createServiceGo_cons_fail (env : Env) (pid sn : String) (np : Payload)
    (n : Nat) (e : Endpoint) (rest : List (Nat × Endpoint)) (k : Nat)
    (le : Option AxiosError)
    (h2 : is2xxAt env k = false) (h422 : ¬ statusAt env k = some 422) :
    createServiceGo env pid sn np ((n, e) :: rest) k le =
      ((createServiceGo env pid sn np rest (k + 1) (some (errOf env k))).1,
       ⟨n, false, e.url, e.payload⟩ ::
         (createServiceGo env pid sn np rest (k + 1) (some (errOf env k))).2) := by
  simp only [createServiceGo, axiosPost_failure env k h2, statusOf_errOf]
  rw [if_neg h422]

theorem createServiceGo_cons_422_retry_ok (env : Env) (pid sn : String) (np : Payload)
    (n : Nat) (e : Endpoint) (rest : List (Nat × Endpoint)) (k : Nat)
    (le : Option AxiosError) (r2 : HttpResponse)
    (h2 : is2xxAt env k = false) (h422 : statusAt env k = some 422)
    (henv2 : env (k + 1) = some r2) (h2xx2 : is2xx r2.status = true) :
    createServiceGo env pid sn np ((n, e) :: rest) k le =
      (Except.ok r2.body,
       [⟨n, false, e.url, e.payload⟩,
        ⟨n, true, e.url, simplifiedPayload pid sn np e.payload⟩]) := by
  have hpost2 : axiosPost env (k + 1) = .success r2 := by
    simp [axiosPost, henv2, h2xx2]
  simp only [createServiceGo, axiosPost_failure env k h2, statusOf_errOf, h422,
    if_pos, hpost2]

theorem createServiceGo_cons_422_retry_fail (env : Env) (pid sn : String) (np : Payload)
    (n : Nat) (e : Endpoint) (rest : List (Nat × Endpoint)) (k : Nat)
    (le : Option AxiosError)
    (h2 : is2xxAt env k = false) (h422 : statusAt env k = some 422)
    (hretry : is2xxAt env (k + 1) = false) :
    createServiceGo env pid sn np ((n, e) :: rest) k le =
      ((createServiceGo env pid sn np rest (k + 2) (some (errOf env k))).1,
       ⟨n, false, e.url, e.payload⟩ ::
         ⟨n, true, e.url, simplifiedPayload pid sn np e.payload⟩ ::
         (createServiceGo env pid sn np rest (k + 2) (some (errOf env k))).2) := by
  simp only [createServiceGo, axiosPost_failure env k h2, statusOf_errOf, h422,
    if_pos, axiosPost_failure env (k + 1) hretry]

theorem leAfter_shift (env : Env) (k : Nat) (le : Option AxiosError) (i : Nat) :
    leAfter env k le (i + 1) = leAfter env (k + consumedAt env k) (some (errOf env k)) i := by
  cases i <;> rfl

theorem posAt_shift (env : Env) (k : Nat) (i : Nat) :
    posAt env k (i + 1) = posAt env (k + consumedAt env k) i := rfl

theorem candidateFails_not2xx {env : Env} {k : Nat}
    (h : candidateFails env k = true) : is2xxAt env k = false := by
  unfold candidateFails at h
  simp only [Bool.and_eq_true, Bool.not_eq_true'] at h
  exact h.1

theorem candidateFails_retry {env : Env} {k : Nat}
    (h : candidateFails env k = true) (h422 : statusAt env k = some 422) :
    is2xxAt env (k + 1) = false := by
  unfold candidateFails at h
  simp only [Bool.and_eq_true, Bool.or_eq_true, Bool.not_eq_true'] at h
  rcases h.2 with hb1 | hb2
  · exact absurd h422 (by simpa using hb1)
  · exact hb2

/-- Main characterization: after a prefix of `i` failing candidates, the run
is the run on the remaining candidates, with the request counter advanced to
`posAt env k i`, the recorded `lastError` advanced to `leAfter env k le i`,
and the failing prefix's requests prepended to the trace. -/
theorem createServiceGo_prefix (env : Env) (pid sn : String) (np : Payload)
    (i : Nat) :
    ∀ (es : List (Nat × Endpoint)) (k : Nat) (le : Option AxiosError),
      i ≤ es.length →
      (∀ j, j < i → candidateFails env (posAt env k j) = true) →
      createServiceGo env pid sn np es k le =
        ((createServiceGo env pid sn np (es.drop i) (posAt env k i) (leAfter env k le i)).1,
         failTrace env pid sn np k (es.take i) ++
           (createServiceGo env pid sn np (es.drop i) (posAt env k i) (leAfter env k le i)).2) := by
  induction i with
  | zero =>
    intro es k le _ _
    simp [failTrace, posAt, leAfter]
  | succ i ih =>
    intro es k le hle hf
    match es with
    | [] => simp at hle
    | (n, e) :: rest =>
      have hf0 : candidateFails env k = true := hf 0 (Nat.succ_pos i)
      have h2 : is2xxAt env k = false := candidateFails_not2xx hf0
      have hlen : i ≤ rest.length := by simpa using hle
      have hfshift : ∀ j, j < i →
          candidateFails env (posAt env (k + consumedAt env k) j) = true := by
        intro j hj
        have := hf (j + 1) (Nat.succ_lt_succ hj)
        rwa [posAt_shift] at this
      have hih := ih rest (k + consumedAt env k) (some (errOf env k)) hlen hfshift
      by_cases h422 : statusAt env k = some 422
      · have hretry : is2xxAt env (k + 1) = false := candidateFails_retry hf0 h422
        have hcons : consumedAt env k = 2 := by unfold consumedAt; rw [if_pos h422]
        rw [hcons] at hih
        rw [createServiceGo_cons_422_retry_fail env pid sn np n e rest k le h2 h422 hretry]
        rw [List.take_succ_cons, List.drop_succ_cons, posAt_shift, leAfter_shift, hcons]
        rw [hih]
        simp only [failTrace, h422, if_pos, List.cons_append]
      · have hcons : consumedAt env k = 1 := by unfold consumedAt; rw [if_neg h422]
        rw [hcons] at hih
        rw [createServiceGo_cons_fail env pid sn np n e rest k le h2 h422]
        rw [List.take_succ_cons, List.drop_succ_cons, posAt_shift, leAfter_shift, hcons]
        rw [hih]
        simp only [failTrace]
        rw [if_neg h422]
        simp only [List.cons_append]

/-! ### Indexing and trace-membership lemmas -/

theorem withIdx_length : ∀ (l : List Endpoint) (n : Nat), (withIdx n l).length = l.length
  | [], _ => rfl
  | _ :: es, n => by simp [withIdx, withIdx_length es (n + 1)]

theorem withIdx_take : ∀ (l : List Endpoint) (n i : Nat),
    (withIdx n l).take i = withIdx n (l.take i)
  | [], n, i => by simp [withIdx]
  | _ :: _, _, 0 => rfl
  | e :: es, n, i + 1 => by
    simp only [withIdx, List.take_succ_cons]
    rw [withIdx_take es (n + 1) i]

theorem withIdx_drop : ∀ (l : List Endpoint) (n i : Nat),
    (withIdx n l).drop i = withIdx (n + i) (l.drop i)
  | [], n, i => by simp [withIdx]
  | _ :: _, _, 0 => rfl
  | e :: es, n, i + 1 => by
    show (withIdx (n + 1) es).drop i = withIdx (n + (i + 1)) (es.drop i)
    rw [withIdx_drop es (n + 1) i]
    congr 1
    omega

theorem withIdx_mem : ∀ {l : List Endpoint} {n m : Nat} {e : Endpoint},
    (m, e) ∈ withIdx n l → n ≤ m ∧ m < n + l.length ∧ e ∈ l := by
  intro l
  induction l with
  | nil => intro n m e h; simp [withIdx] at h
  | cons x xs ih =>
    intro n m e h
    rcases List.mem_cons.mp h with h | h
    · obtain ⟨h1, h2⟩ := Prod.mk.injEq .. ▸ h
      refine ⟨by omega, by simp; omega, by rw [h2]; exact List.mem_cons_self x xs⟩
    · obtain ⟨hn, hm, he⟩ := ih h
      exact ⟨by omega, by simp; omega, List.mem_cons_of_mem x he⟩

theorem failTrace_mem (env : Env) (pid sn : String) (np : Payload) :
    ∀ (es : List (Nat × Endpoint)) (k : Nat) (req : Request),
      req ∈ failTrace env pid sn np k es →
      ∃ m e', (m, e') ∈ es ∧ req.candidate = m ∧ req.url = e'.url := by
  intro es
  induction es with
  | nil => intro k req h; simp [failTrace] at h
  | cons ne rest ih =>
    obtain ⟨n, e⟩ := ne
    intro k req h
    simp only [failTrace] at h
    by_cases h422 : statusAt env k = some 422
    · rw [if_pos h422] at h
      rcases List.mem_cons.mp h with h | h
      · exact ⟨n, e, List.mem_cons_self _ _, by rw [h], by rw [h]⟩
      · rcases List.mem_cons.mp h with h | h
        · exact ⟨n, e, List.mem_cons_self _ _, by rw [h], by rw [h]⟩
        · obtain ⟨m, e', hm, hc, hu⟩ := ih (k + 2) req h
          exact ⟨m, e', List.mem_cons_of_mem _ hm, hc, hu⟩
    · rw [if_neg h422] at h
      rcases List.mem_cons.mp h with h | h
      · exact ⟨n, e, List.mem_cons_self _ _, by rw [h], by rw [h]⟩
      · obtain ⟨m, e', hm, hc, hu⟩ := ih (k + 1) req h
        exact ⟨m, e', List.mem_cons_of_mem _ hm, hc, hu⟩

theorem is2xxAt_true {env : Env} {k : Nat} (h : is2xxAt env k = true) :
    ∃ r, env k = some r ∧ is2xx r.status = true := by
  unfold is2xxAt at h
  cases henv : env k with
  | none => rw [henv] at h; simp at h
  | some r =>
    rw [henv] at h
    exact ⟨r, rfl, by simpa using h⟩

theorem createServiceGo_trace_mem (env : Env) (pid sn : String) (np : Payload) :
    ∀ (es : List (Nat × Endpoint)) (k : Nat) (le : Option AxiosError) (req : Request),
      req ∈ (createServiceGo env pid sn np es k le).2 →
      ∃ m e', (m, e') ∈ es ∧ req.candidate = m ∧ req.url = e'.url := by
  intro es
  induction es with
  | nil => intro k le req h; simp [createServiceGo] at h
  | cons ne rest ih =>
    obtain ⟨n, e⟩ := ne
    intro k le req h
    by_cases h2 : is2xxAt env k = false
    · by_cases h422 : statusAt env k = some 422
      · by_cases hret : is2xxAt env (k + 1) = false
        · rw [createServiceGo_cons_422_retry_fail env pid sn np n e rest k le h2 h422 hret] at h
          rcases List.mem_cons.mp h with h | h
          · exact ⟨n, e, List.mem_cons_self _ _, by rw [h], by rw [h]⟩
          · rcases List.mem_cons.mp h with h | h
            · exact ⟨n, e, List.mem_cons_self _ _, by rw [h], by rw [h]⟩
            · obtain ⟨m, e', hm, hc, hu⟩ := ih (k + 2) (some (errOf env k)) req h
              exact ⟨m, e', List.mem_cons_of_mem _ hm, hc, hu⟩
        · obtain ⟨r2, henv2, h2xx2⟩ := is2xxAt_true (Bool.of_not_eq_false hret)
          rw [createServiceGo_cons_422_retry_ok env pid sn np n e rest k le r2 h2 h422 henv2 h2xx2] at h
          rcases List.mem_cons.mp h with h | h
          · exact ⟨n, e, List.mem_cons_self _ _, by rw [h], by rw [h]⟩
          · rw [List.mem_singleton] at h
            exact ⟨n, e, List.mem_cons_self _ _, by rw [h], by rw [h]⟩
      · rw [createServiceGo_cons_fail env pid sn np n e rest k le h2 h422] at h
        rcases List.mem_cons.mp h with h | h
        · exact ⟨n, e, List.mem_cons_self _ _, by rw [h], by rw [h]⟩
        · obtain ⟨m, e', hm, hc, hu⟩ := ih (k + 1) (some (errOf env k)) req h
          exact ⟨m, e', List.mem_cons_of_mem _ hm, hc, hu⟩
    · obtain ⟨r, henv, hr⟩ := is2xxAt_true (Bool.of_not_eq_false h2)
      rw [createServiceGo_cons_success env pid sn np n e rest k le r henv hr] at h
      rw [List.mem_singleton] at h
      exact ⟨n, e, List.mem_cons_self _ _, by rw [h], by rw [h]⟩

/-! ### C1: candidates are tried strictly in order, first 2xx wins -/

/-- **C1.** For every ordered candidate list and every sequence of HTTP
responses, `createServiceWithFallback` issues its POST requests to the
candidates strictly in declared order, and when candidate `i`'s primary
POST returns a 2xx response (all earlier candidates having failed), it
returns that response's parsed body immediately: the trace is exactly the
failing candidates' requests, in table order, followed by candidate `i`'s
single POST, and no request ever targets a candidate after `i`. -/
theorem createServiceWithFallback_first_2xx (env : Env) (pid sn : String)
    (np lp : Payload) (i : Nat) (r : HttpResponse)
    (hi : i < (endpointsToTry pid sn np lp).length)
    (hfail : ∀ j, j < i → candidateFails env (posAt env 0 j) = true)
    (henv : env (posAt env 0 i) = some r)
    (h2 : is2xx r.status = true) :
    createServiceWithFallback env pid sn np lp =
      (Except.ok r.body,
       failTrace env pid sn np 0 (withIdx 0 ((endpointsToTry pid sn np lp).take i)) ++
         [⟨i, false, ((endpointsToTry pid sn np lp).get ⟨i, hi⟩).url,
           ((endpointsToTry pid sn np lp).get ⟨i, hi⟩).payload⟩]) ∧
    ∀ req ∈ (createServiceWithFallback env pid sn np lp).2, req.candidate ≤ i := by
  have hlen : i ≤ (withIdx 0 (endpointsToTry pid sn np lp)).length := by
    rw [withIdx_length]; omega
  have hpre := createServiceGo_prefix env pid sn np i
    (withIdx 0 (endpointsToTry pid sn np lp)) 0 none hlen hfail
  have hdrop : (withIdx 0 (endpointsToTry pid sn np lp)).drop i =
      (0 + i, (endpointsToTry pid sn np lp).get ⟨i, hi⟩) ::
        withIdx (0 + i + 1) ((endpointsToTry pid sn np lp).drop (i + 1)) := by
    rw [withIdx_drop, List.drop_eq_getElem_cons hi]
    rfl
  rw [hdrop,
    createServiceGo_cons_success env pid sn np (0 + i) _ _
      (posAt env 0 i) (leAfter env 0 none i) r henv h2] at hpre
  rw [withIdx_take] at hpre
  simp only [Nat.zero_add] at hpre
  have hmain : createServiceWithFallback env pid sn np lp =
      (Except.ok r.body,
       failTrace env pid sn np 0 (withIdx 0 ((endpointsToTry pid sn np lp).take i)) ++
         [⟨i, false, ((endpointsToTry pid sn np lp).get ⟨i, hi⟩).url,
           ((endpointsToTry pid sn np lp).get ⟨i, hi⟩).payload⟩]) := by
    unfold createServiceWithFallback
    exact hpre
  refine ⟨hmain, ?_⟩
  intro req hreq
  rw [hmain] at hreq
  rcases List.mem_append.mp hreq with hreq | hreq
  · obtain ⟨m, e', hm, hc, _⟩ := failTrace_mem env pid sn np _ 0 req hreq
    obtain ⟨_, hub, _⟩ := withIdx_mem hm
    have : ((endpointsToTry pid sn np lp).take i).length ≤ i := by
      simp [List.length_take]
    omega
  · rw [List.mem_singleton] at hreq
    rw [hreq]

def envC1 : Env := fun k =>
  if k = 0 then some ⟨404, "not found"⟩
  else if k = 1 then some ⟨201, "created"⟩
  else none

theorem createServiceWithFallback_first_2xx_witness :
    createServiceWithFallback envC1 "p1" "app" [] [] =
      (Except.ok "created",
       failTrace envC1 "p1" "app" [] 0 (withIdx 0 ((endpointsToTry "p1" "app" [] []).take 1)) ++
         [⟨1, false, ((endpointsToTry "p1" "app" [] []).get ⟨1, by decide⟩).url,
           ((endpointsToTry "p1" "app" [] []).get ⟨1, by decide⟩).payload⟩]) ∧
    ∀ req ∈ (createServiceWithFallback envC1 "p1" "app" [] []).2, req.candidate ≤ 1 :=
  createServiceWithFallback_first_2xx envC1 "p1" "app" [] [] 1 ⟨201, "created"⟩
    (by decide) (by decide) (by decide) (by decide)

/-! ### C2: the single simplified-payload retry on a 422 -/

theorem is2xxAt_of_some {env : Env} {k : Nat} {r : HttpResponse}
    (henv : env k = some r) (h : is2xx r.status = true) : is2xxAt env k = true := by
  simp [is2xxAt, henv, h]

theorem is2xxAt_of_422 {env : Env} {k : Nat} (h : statusAt env k = some 422) :
    is2xxAt env k = false := by
  unfold statusAt at h
  cases henv : env k with
  | none => rw [henv] at h; simp at h
  | some r =>
    rw [henv] at h
    have hst : r.status = 422 := by simpa using h
    simp [is2xxAt, henv, hst, is2xx]

/-- The first request a (sub)run issues is the primary POST of its first
candidate. -/
theorem createServiceGo_trace_head (env : Env) (pid sn : String) (np : Payload)
    (n : Nat) (e : Endpoint) (rest : List (Nat × Endpoint)) (k : Nat)
    (le : Option AxiosError) :
    ((createServiceGo env pid sn np ((n, e) :: rest) k le).2).head? =
      some ⟨n, false, e.url, e.payload⟩ := by
  by_cases h2 : is2xxAt env k = false
  · by_cases h422 : statusAt env k = some 422
    · by_cases hret : is2xxAt env (k + 1) = false
      · rw [createServiceGo_cons_422_retry_fail env pid sn np n e rest k le h2 h422 hret]
        rfl
      · obtain ⟨r2, henv2, h2xx2⟩ := is2xxAt_true (Bool.of_not_eq_false hret)
        rw [createServiceGo_cons_422_retry_ok env pid sn np n e rest k le r2 h2 h422 henv2 h2xx2]
        rfl
    · rw [createServiceGo_cons_fail env pid sn np n e rest k le h2 h422]
      rfl
  · obtain ⟨r, henv, hr⟩ := is2xxAt_true (Bool.of_not_eq_false h2)
    rw [createServiceGo_cons_success env pid sn np n e rest k le r henv hr]
    rfl

/-- Key inventory of the simplified retry payload: always `name` and
`project_uuid`, possibly `docker_image`, and — when the candidate's
original payload carried a truthy `docker_registry_image_tag` — also
`docker_image_tag`. -/
theorem simplifiedPayload_keys (pid sn : String) (np ep : Payload) :
    "name" ∈ (simplifiedPayload pid sn np ep).map Prod.fst ∧
    "project_uuid" ∈ (simplifiedPayload pid sn np ep).map Prod.fst ∧
    ∀ x ∈ (simplifiedPayload pid sn np ep).map Prod.fst,
      x ∈ ["name", "docker_image", "project_uuid", "docker_image_tag"] := by
  unfold simplifiedPayload
  cases h1 : jsOrF (lookupField np "image") (lookupField ep "docker_registry_image_name") with
  | none =>
    cases h2 : lookupField ep "docker_registry_image_tag" with
    | none => simp
    | some w =>
      cases htw : truthyV w with
      | false => simp [htw]
      | true => simp [htw]
  | some v =>
    cases h2 : lookupField ep "docker_registry_image_tag" with
    | none => simp
    | some w =>
      cases htw : truthyV w with
      | false => simp [htw]
      | true => simp [htw]

/-- **C2 (amended).** When candidate `i`'s primary POST returns 422 (all
earlier candidates having failed), the negotiator performs exactly one
retry, on the same candidate path, with the minimized payload — which
contains `name`, `project_uuid`, possibly `docker_image`, and additionally
`docker_image_tag` whenever the candidate's original payload carried a
truthy `docker_registry_image_tag`.  If the retry succeeds its response is
returned immediately; if it fails the negotiator moves on to the next
candidate and never POSTs to that candidate again. -/
theorem createServiceWithFallback_422_retry (env : Env) (pid sn : String)
    (np lp : Payload) (i : Nat)
    (hi : i < (endpointsToTry pid sn np lp).length)
    (hfail : ∀ j, j < i → candidateFails env (posAt env 0 j) = true)
    (h422 : statusAt env (posAt env 0 i) = some 422) :
    (createServiceWithFallback env pid sn np lp).2.filter
        (fun req => req.candidate == i && req.isRetry) =
      [⟨i, true, ((endpointsToTry pid sn np lp).get ⟨i, hi⟩).url,
        simplifiedPayload pid sn np ((endpointsToTry pid sn np lp).get ⟨i, hi⟩).payload⟩] ∧
    ("name" ∈ (simplifiedPayload pid sn np
        ((endpointsToTry pid sn np lp).get ⟨i, hi⟩).payload).map Prod.fst ∧
     "project_uuid" ∈ (simplifiedPayload pid sn np
        ((endpointsToTry pid sn np lp).get ⟨i, hi⟩).payload).map Prod.fst ∧
     ∀ x ∈ (simplifiedPayload pid sn np
        ((endpointsToTry pid sn np lp).get ⟨i, hi⟩).payload).map Prod.fst,
       x ∈ ["name", "docker_image", "project_uuid", "docker_image_tag"]) ∧
    (∀ r2, env (posAt env 0 i + 1) = some r2 → is2xx r2.status = true →
      createServiceWithFallback env pid sn np lp =
        (Except.ok r2.body,
         failTrace env pid sn np 0 (withIdx 0 ((endpointsToTry pid sn np lp).take i)) ++
           [⟨i, false, ((endpointsToTry pid sn np lp).get ⟨i, hi⟩).url,
             ((endpointsToTry pid sn np lp).get ⟨i, hi⟩).payload⟩,
            ⟨i, true, ((endpointsToTry pid sn np lp).get ⟨i, hi⟩).url,
             simplifiedPayload pid sn np ((endpointsToTry pid sn np lp).get ⟨i, hi⟩).payload⟩])) ∧
    (is2xxAt env (posAt env 0 i + 1) = false →
      ∃ tail,
        (createServiceWithFallback env pid sn np lp).2 =
          failTrace env pid sn np 0 (withIdx 0 ((endpointsToTry pid sn np lp).take i)) ++
            ⟨i, false, ((endpointsToTry pid sn np lp).get ⟨i, hi⟩).url,
              ((endpointsToTry pid sn np lp).get ⟨i, hi⟩).payload⟩ ::
            ⟨i, true, ((endpointsToTry pid sn np lp).get ⟨i, hi⟩).url,
              simplifiedPayload pid sn np ((endpointsToTry pid sn np lp).get ⟨i, hi⟩).payload⟩ ::
            tail ∧
        (∀ req ∈ tail, i + 1 ≤ req.candidate) ∧
        ∀ hi2 : i + 1 < (endpointsToTry pid sn np lp).length,
          tail.head? = some ⟨i + 1, false,
            ((endpointsToTry pid sn np lp).get ⟨i + 1, hi2⟩).url,
            ((endpointsToTry pid sn np lp).get ⟨i + 1, hi2⟩).payload⟩) := by
  have hlen : i ≤ (withIdx 0 (endpointsToTry pid sn np lp)).length := by
    rw [withIdx_length]; omega
  have hpre := createServiceGo_prefix env pid sn np i
    (withIdx 0 (endpointsToTry pid sn np lp)) 0 none hlen hfail
  have hdrop : (withIdx 0 (endpointsToTry pid sn np lp)).drop i =
      (0 + i, (endpointsToTry pid sn np lp).get ⟨i, hi⟩) ::
        withIdx (0 + i + 1) ((endpointsToTry pid sn np lp).drop (i + 1)) := by
    rw [withIdx_drop, List.drop_eq_getElem_cons hi]
    rfl
  rw [hdrop, withIdx_take] at hpre
  simp only [Nat.zero_add] at hpre
  have h2p : is2xxAt env (posAt env 0 i) = false := is2xxAt_of_422 h422
  have hftbound : ∀ req ∈ failTrace env pid sn np 0
      (withIdx 0 ((endpointsToTry pid sn np lp).take i)), req.candidate < i := by
    intro req hreq
    obtain ⟨m, e', hm, hc, _⟩ := failTrace_mem env pid sn np _ 0 req hreq
    obtain ⟨_, hub, _⟩ := withIdx_mem hm
    have hlt : ((endpointsToTry pid sn np lp).take i).length ≤ i := by
      simp [List.length_take]
    omega
  have hftfilter : (failTrace env pid sn np 0
      (withIdx 0 ((endpointsToTry pid sn np lp).take i))).filter
        (fun req => req.candidate == i && req.isRetry) = [] := by
    rw [List.filter_eq_nil_iff]
    intro req hreq
    have := hftbound req hreq
    simp only [Bool.and_eq_true, beq_iff_eq, not_and]
    intro hceq
    omega
  by_cases hret : is2xxAt env (posAt env 0 i + 1) = false
  · -- the retry fails: the run moves on to candidate i+1
    rw [createServiceGo_cons_422_retry_fail env pid sn np i
      ((endpointsToTry pid sn np lp).get ⟨i, hi⟩)
      (withIdx (i + 1) ((endpointsToTry pid sn np lp).drop (i + 1)))
      (posAt env 0 i) (leAfter env 0 none i) h2p h422 hret] at hpre
    have htr : createServiceWithFallback env pid sn np lp =
        ((createServiceGo env pid sn np
            (withIdx (i + 1) ((endpointsToTry pid sn np lp).drop (i + 1)))
            (posAt env 0 i + 2) (some (errOf env (posAt env 0 i)))).1,
         failTrace env pid sn np 0 (withIdx 0 ((endpointsToTry pid sn np lp).take i)) ++
           ⟨i, false, ((endpointsToTry pid sn np lp).get ⟨i, hi⟩).url,
             ((endpointsToTry pid sn np lp).get ⟨i, hi⟩).payload⟩ ::
           ⟨i, true, ((endpointsToTry pid sn np lp).get ⟨i, hi⟩).url,
             simplifiedPayload pid sn np ((endpointsToTry pid sn np lp).get ⟨i, hi⟩).payload⟩ ::
           (createServiceGo env pid sn np
              (withIdx (i + 1) ((endpointsToTry pid sn np lp).drop (i + 1)))
              (posAt env 0 i + 2) (some (errOf env (posAt env 0 i)))).2) := by
      unfold createServiceWithFallback
      exact hpre
    have htailbound : ∀ req ∈ (createServiceGo env pid sn np
        (withIdx (i + 1) ((endpointsToTry pid sn np lp).drop (i + 1)))
        (posAt env 0 i + 2) (some (errOf env (posAt env 0 i)))).2,
        i + 1 ≤ req.candidate := by
      intro req hreq
      obtain ⟨m, e', hm, hc, _⟩ := createServiceGo_trace_mem env pid sn np _ _ _ req hreq
      obtain ⟨hlb, _, _⟩ := withIdx_mem hm
      omega
    refine ⟨?_, simplifiedPayload_keys pid sn np _, ?_, ?_⟩
    · -- exactly one retry on candidate i
      rw [show (createServiceWithFallback env pid sn np lp).2 = _ from congrArg Prod.snd htr]
      rw [List.filter_append, hftfilter]
      simp only [List.filter_cons]
      have hprim : ((i == i) && false) = false := by simp
      have hrtr : ((i == i) && true) = true := by simp
      rw [List.nil_append]
      simp only [hprim, hrtr, Bool.false_eq_true, if_false, if_true]
      have : (createServiceGo env pid sn np
          (withIdx (i + 1) ((endpointsToTry pid sn np lp).drop (i + 1)))
          (posAt env 0 i + 2) (some (errOf env (posAt env 0 i)))).2.filter
            (fun req => req.candidate == i && req.isRetry) = [] := by
        rw [List.filter_eq_nil_iff]
        intro req hreq
        have := htailbound req hreq
        simp only [Bool.and_eq_true, beq_iff_eq, not_and]
        intro hceq
        omega
      rw [this]
    · -- a successful retry is impossible in this case
      intro r2 henv2 h2xx2
      exact absurd (is2xxAt_of_some henv2 h2xx2) (by rw [hret]; exact Bool.false_ne_true)
    · intro _
      refine ⟨(createServiceGo env pid sn np
          (withIdx (i + 1) ((endpointsToTry pid sn np lp).drop (i + 1)))
          (posAt env 0 i + 2) (some (errOf env (posAt env 0 i)))).2,
        congrArg Prod.snd htr, htailbound, ?_⟩
      intro hi2
      have hdrop2 : withIdx (i + 1) ((endpointsToTry pid sn np lp).drop (i + 1)) =
          (i + 1, (endpointsToTry pid sn np lp).get ⟨i + 1, hi2⟩) ::
            withIdx (i + 1 + 1) ((endpointsToTry pid sn np lp).drop (i + 1 + 1)) := by
        rw [List.drop_eq_getElem_cons hi2]
        rfl
      rw [hdrop2]
      exact createServiceGo_trace_head env pid sn np (i + 1) _ _ _ _
  · -- the retry succeeds: its response is returned immediately
    obtain ⟨r2, henv2, h2xx2⟩ := is2xxAt_true (Bool.of_not_eq_false hret)
    rw [createServiceGo_cons_422_retry_ok env pid sn np i
      ((endpointsToTry pid sn np lp).get ⟨i, hi⟩)
      (withIdx (i + 1) ((endpointsToTry pid sn np lp).drop (i + 1)))
      (posAt env 0 i) (leAfter env 0 none i) r2 h2p h422 henv2 h2xx2] at hpre
    have htr : createServiceWithFallback env pid sn np lp =
        (Except.ok r2.body,
         failTrace env pid sn np 0 (withIdx 0 ((endpointsToTry pid sn np lp).take i)) ++
           [⟨i, false, ((endpointsToTry pid sn np lp).get ⟨i, hi⟩).url,
             ((endpointsToTry pid sn np lp).get ⟨i, hi⟩).payload⟩,
            ⟨i, true, ((endpointsToTry pid sn np lp).get ⟨i, hi⟩).url,
             simplifiedPayload pid sn np ((endpointsToTry pid sn np lp).get ⟨i, hi⟩).payload⟩]) := by
      unfold createServiceWithFallback
      exact hpre
    refine ⟨?_, simplifiedPayload_keys pid sn np _, ?_, ?_⟩
    · rw [show (createServiceWithFallback env pid sn np lp).2 = _ from congrArg Prod.snd htr]
      rw [List.filter_append, hftfilter]
      simp only [List.filter_cons, List.filter_nil]
      have hprim : ((i == i) && false) = false := by simp
      have hrtr : ((i == i) && true) = true := by simp
      simp only [hprim, hrtr, Bool.false_eq_true, if_false, if_true]
      rfl
    · intro r2' henv2' _
      have : r2' = r2 := by
        rw [henv2] at henv2'
        exact (Option.some.injEq .. ▸ henv2').symm
      rw [this]
      exact htr
    · intro habs
      exact absurd habs hret

def envC2 : Env := fun k =>
  if k = 0 then some ⟨404, "not found"⟩
  else if k = 1 then some ⟨422, "validation failed"⟩
  else if k = 2 then some ⟨201, "created"⟩
  else none

theorem createServiceWithFallback_422_retry_witness :
    (createServiceWithFallback envC2 "p1" "app" [] []).2.filter
        (fun req => req.candidate == 1 && req.isRetry) =
      [⟨1, true, ((endpointsToTry "p1" "app" [] []).get ⟨1, by decide⟩).url,
        simplifiedPayload "p1" "app" []
          ((endpointsToTry "p1" "app" [] []).get ⟨1, by decide⟩).payload⟩] :=
  (createServiceWithFallback_422_retry envC2 "p1" "app" [] [] 1
    (by decide) (by decide) (by decide)).1

/-- A legacy-format payload as built by the callers of
`createServiceWithFallback` (it carries a `docker_registry_image_tag`). -/
def legacyPayloadCE : Payload :=
  [("name", JVal.str "app"),
   ("docker_registry_image_name", JVal.str "img"),
   ("docker_registry_image_tag", JVal.str "latest")]

/-- **C2, counterexample to the claim as stated.** The claim says the
422 retry uses a minimized payload of *only* name + image + project
reference.  Concretely (candidate 1 returns 422, its payload carrying
`docker_registry_image_tag`), the single retry's payload has the four
fields `name`, `docker_image`, `project_uuid`, `docker_image_tag` — the
tag field is none of the three claimed fields. -/
theorem createServiceWithFallback_422_retry_counterexample :
    ((createServiceWithFallback envC2 "p1" "app" [] legacyPayloadCE).2.filter
        (fun req => req.candidate == 1 && req.isRetry)).map
          (fun req => req.payload.map Prod.fst) =
      [["name", "docker_image", "project_uuid", "docker_image_tag"]] ∧
    "docker_image_tag" ∉ (["name", "docker_image", "project_uuid"] : List String) := by
  decide

/-! ### C3: the error thrown when every candidate fails -/

/-- **C3 (amended).** If every candidate fails, `createServiceWithFallback`
throws the recorded `lastError`: the axios error of the **last candidate's
primary POST** — carrying that response's HTTP status and body — rather
than the first failure.  (Responses to simplified-payload retries are never
recorded as `lastError`, so the thrown error is not always the last non-2xx
response *observed*; see the counterexample.) -/
theorem createServiceWithFallback_all_fail (env : Env) (pid sn : String)
    (np lp : Payload)
    (hfail : ∀ j, j < 6 → candidateFails env (posAt env 0 j) = true) :
    (createServiceWithFallback env pid sn np lp).1 =
      Except.error (ThrownError.axios (errOf env (posAt env 0 5))) := by
  have hlen6 : (withIdx 0 (endpointsToTry pid sn np lp)).length = 6 := by
    rw [withIdx_length]; rfl
  have hpre := createServiceGo_prefix env pid sn np 6
    (withIdx 0 (endpointsToTry pid sn np lp)) 0 none (by omega) hfail
  have hdropall : (withIdx 0 (endpointsToTry pid sn np lp)).drop 6 = [] := by
    apply List.drop_eq_nil_of_le
    omega
  rw [hdropall] at hpre
  unfold createServiceWithFallback
  rw [hpre]
  simp [createServiceGo, leAfter]

def env404 : Env := fun _ => some ⟨404, "Not Found"⟩

theorem createServiceWithFallback_all_fail_witness :
    (createServiceWithFallback env404 "p1" "app" [] []).1 =
      Except.error (ThrownError.axios (errOf env404 (posAt env404 0 5))) :=
  createServiceWithFallback_all_fail env404 "p1" "app" [] [] (by decide)

def envC3 : Env := fun k =>
  if k < 5 then some ⟨404, "not found"⟩
  else if k = 5 then some ⟨422, "validation failed"⟩
  else if k = 6 then some ⟨500, "retry crashed"⟩
  else none

/-- **C3, counterexample to the claim as stated.** Candidates 0-4 return
404; candidate 5 (the last) returns 422, and its simplified retry — the
seventh and final request, hence the last non-2xx response observed —
returns 500.  Every candidate fails, yet the thrown error references the
422 response, not the last-observed 500 response. -/
theorem createServiceWithFallback_all_fail_counterexample :
    (∀ j, j < 6 → candidateFails envC3 (posAt envC3 0 j) = true) ∧
    (createServiceWithFallback envC3 "p1" "app" [] []).2.length = 7 ∧
    envC3 6 = some ⟨500, "retry crashed"⟩ ∧
    (createServiceWithFallback envC3 "p1" "app" [] []).1 =
      Except.error (ThrownError.axios ⟨some ⟨422, "validation failed"⟩⟩) ∧
    (⟨422, "validation failed"⟩ : HttpResponse) ≠ ⟨500, "retry crashed"⟩ := by
  decide

/-! ### C9: the candidate endpoint paths -/

/-- **C9 (amended).** The candidate endpoint paths tried, in order, are
exactly `/api/v1/applications/dockerimage`, `/api/v1/applications`,
`/api/v1/projects/{id}/applications`, `/api/v1/services`,
`/api/v1/projects/{id}/services`, **and finally the legacy
`/applications`** — and no POST of a negotiation run ever targets any
other path. -/
theorem endpointsToTry_urls (pid sn : String) (np lp : Payload) :
    (endpointsToTry pid sn np lp).map Endpoint.url =
      ["/api/v1/applications/dockerimage", "/api/v1/applications",
       "/api/v1/projects/" ++ pid ++ "/applications", "/api/v1/services",
       "/api/v1/projects/" ++ pid ++ "/services", "/applications"] ∧
    ∀ (env : Env) (req : Request),
      req ∈ (createServiceWithFallback env pid sn np lp).2 →
      req.url ∈ ["/api/v1/applications/dockerimage", "/api/v1/applications",
       "/api/v1/projects/" ++ pid ++ "/applications", "/api/v1/services",
       "/api/v1/projects/" ++ pid ++ "/services", "/applications"] := by
  refine ⟨rfl, ?_⟩
  intro env req hreq
  unfold createServiceWithFallback at hreq
  obtain ⟨m, e', hm, _, hu⟩ := createServiceGo_trace_mem env pid sn np _ 0 none req hreq
  obtain ⟨_, _, he⟩ := withIdx_mem hm
  rw [hu]
  exact List.mem_map_of_mem Endpoint.url he

theorem endpointsToTry_urls_witness :
    (({ candidate := 5, isRetry := false, url := "/applications",
        payload := [("project_uuid", JVal.str "p1")] } : Request)).url ∈
      ["/api/v1/applications/dockerimage", "/api/v1/applications",
       "/api/v1/projects/" ++ "p1" ++ "/applications", "/api/v1/services",
       "/api/v1/projects/" ++ "p1" ++ "/services", "/applications"] :=
  (endpointsToTry_urls "p1" "app" [] []).2 env404 _ (by decide)

/-- **C9, counterexample to the claim as stated.** With every candidate
returning 404, the run issues six POSTs: the five claimed paths *plus* a
final POST to the legacy `/applications` path, which is not among the five
paths the claim says are the only ones attempted. -/
theorem endpointsToTry_urls_counterexample :
    ((createServiceWithFallback env404 "p1" "app" [] []).2.map Request.url) =
      ["/api/v1/applications/dockerimage", "/api/v1/applications",
       "/api/v1/projects/p1/applications", "/api/v1/services",
       "/api/v1/projects/p1/services", "/applications"] ∧
    "/applications" ∈ ((createServiceWithFallback env404 "p1" "app" [] []).2.map Request.url) ∧
    "/applications" ∉ (["/api/v1/applications/dockerimage", "/api/v1/applications",
       "/api/v1/projects/p1/applications", "/api/v1/services",
       "/api/v1/projects/p1/services"] : List String) := by
  decide

/-! ## Server discovery (source: lines 75-113, 246-278) -/

/-- JavaScript `x || y` on possibly-missing strings (`none` is `undefined`,
`""` is falsy). -/
def jsOrS : Option String → Option String → Option String
  | some s, y => if s == "" then y else some s
  | none, y => y

/-- JavaScript truthiness of a possibly-missing string. -/
def truthyS : Option String → Bool
  | some s => !(s == "")
  | none => false

/-- One entry of the `GET /api/v1/servers` response. -/
structure ServerEntry where
  uuid : Option String
  id : Option String
deriving DecidableEq, Repr

/-- `getServerUuid` (source lines 75-113): the first server's `uuid || id`;
throws if the list is empty or the identifier is falsy. -/
def getServerUuid (servers : List ServerEntry) : Except String String :=
  match servers with
  | [] => Except.error "No servers found. Please ensure at least one server is configured in Coolify."
  | server :: _ =>
    match jsOrS server.uuid server.id with
    | some u =>
      if u == "" then Except.error "Server UUID not found in server response"
      else Except.ok u
    | none => Except.error "Server UUID not found in server response"

/-- One entry of the `GET /api/v1/environments` response. -/
structure EnvEntry where
  name : Option String
  uuid : Option String
  id : Option String
deriving DecidableEq, Repr

/-- The value `getDefaultEnvironment` resolves to (`uuid = none` models a
JavaScript-`undefined` uuid; downstream only its truthiness is used). -/
structure EnvironmentInfo where
  name : String
  uuid : Option String
deriving DecidableEq, Repr

/-- The predicate of the `find?` in `getDefaultEnvironment` (source lines
250-252): the entry's name is `production` or `prod`. -/
def isProdName (env : EnvEntry) : Bool :=
  env.name == some "production" || env.name == some "prod"

def isProdName? : Option EnvEntry → Bool
  | some e => isProdName e
  | none => false

/-- `{name: e.name || 'production', uuid: e.uuid || e.id}` (source lines
254-257). -/
def renderEnv (e : EnvEntry) : EnvironmentInfo :=
  { name := (jsOrS e.name (some "production")).getD "production",
    uuid := jsOrS e.uuid e.id }

/-- `getDefaultEnvironment` (source lines 246-263).  The argument is the
outcome of `GET /api/v1/environments`: `none` models a failed request (the
catch path), `some l` the parsed array; an empty or missing array yields
the synthetic default. -/
def getDefaultEnvironment (response : Option (List EnvEntry)) : EnvironmentInfo :=
  match response with
  | some (e :: rest) =>
    let productionEnv := ((e :: rest).find? isProdName).getD e
    renderEnv productionEnv
  | _ => { name := "production", uuid := some "" }

/-- One entry of the `GET /api/v1/destinations` response. -/
structure DestEntry where
  uuid : Option String
  id : Option String
deriving DecidableEq, Repr

/-- `getDefaultDestinationUuid` (source lines 268-278): first destination's
`uuid || id`, `null` when the list is empty or the request failed. -/
def getDefaultDestinationUuid (response : Option (List DestEntry)) : Option String :=
  match response with
  | some (d :: _) => jsOrS d.uuid d.id
  | _ => none

/-! ## `createApplicationWithDockerImage` (source: lines 119-200) -/

/-- The request body built by `createApplicationWithDockerImage` (source
lines 136-192), given the resolved server uuid, environment and
destination. -/
def createApplicationPayload (projectId serviceName dockerImage serverUuid : String)
    (environment : EnvironmentInfo) (destinationUuid : Option String) : Payload :=
  [("project_uuid", JVal.str projectId),
   ("server_uuid", JVal.str serverUuid),
   ("environment_name", JVal.str (if environment.name == "" then "production" else environment.name)),
   ("docker_registry_image_name", JVal.str (parseDockerImage dockerImage).1),
   ("docker_registry_image_tag", JVal.str (parseDockerImage dockerImage).2),
   ("ports_exposes", JVal.str "3000"),
   ("name", JVal.str serviceName),
   ("description", JVal.str "SvelteKit application service"),
   ("domains", JVal.str ""),
   ("ports_mappings", JVal.str ""),
   ("health_check_enabled", JVal.bool true),
   ("health_check_path", JVal.str "/health"),
   ("health_check_port", JVal.str "3000"),
   ("health_check_host", JVal.str "0.0.0.0"),
   ("health_check_method", JVal.str "GET"),
   ("health_check_return_code", JVal.num 200),
   ("health_check_scheme", JVal.str "http"),
   ("health_check_response_text", JVal.str ""),
   ("health_check_interval", JVal.num 30),
   ("health_check_timeout", JVal.num 10),
   ("health_check_retries", JVal.num 3),
   ("health_check_start_period", JVal.num 0),
   ("limits_memory", JVal.str ""),
   ("limits_memory_swap", JVal.str ""),
   ("limits_memory_swappiness", JVal.num 0),
   ("limits_memory_reservation", JVal.str ""),
   ("limits_cpus", JVal.str ""),
   ("limits_cpuset", JVal.str ""),
   ("limits_cpu_shares", JVal.num 0),
   ("custom_labels", JVal.str ""),
   ("custom_docker_run_options", JVal.str ""),
   ("post_deployment_command", JVal.str ""),
   ("post_deployment_command_container", JVal.str ""),
   ("pre_deployment_command", JVal.str ""),
   ("pre_deployment_command_container", JVal.str ""),
   ("manual_webhook_secret_github", JVal.str ""),
   ("manual_webhook_secret_gitlab", JVal.str ""),
   ("manual_webhook_secret_bitbucket", JVal.str ""),
   ("manual_webhook_secret_gitea", JVal.str ""),
   ("redirect", JVal.str ""),
   ("instant_deploy", JVal.bool true),
   ("use_build_server", JVal.bool true),
   ("is_http_basic_auth_enabled", JVal.bool true),
   ("http_basic_auth_username", JVal.str ""),
   ("http_basic_auth_password", JVal.str ""),
   ("connect_to_docker_network", JVal.bool true)]
  ++ (if truthyS environment.uuid then
        [("environment_uuid", JVal.str (environment.uuid.getD ""))] else [])
  ++ (if truthyS destinationUuid then
        [("destination_uuid", JVal.str (destinationUuid.getD ""))] else [])

structure PostRequest where
  url : String
  payload : Payload
deriving DecidableEq, Repr

/-- The POST request `createSvelteKitService`'s primary path issues: it
resolves the server uuid via `getServerUuid` (fatal on failure), resolves
environment and destination (soft), and POSTs the application payload to
`/api/v1/applications/dockerimage` (source lines 552-572 and 119-200). -/
def createApplicationRequest (projectId serviceName dockerImage : String)
    (servers : List ServerEntry) (envResponse : Option (List EnvEntry))
    (destResponse : Option (List DestEntry)) : Except String PostRequest :=
  match getServerUuid servers with
  | Except.error e => Except.error e
  | Except.ok serverUuid =>
    Except.ok ⟨"/api/v1/applications/dockerimage",
      createApplicationPayload projectId serviceName dockerImage serverUuid
        (getDefaultEnvironment envResponse) (getDefaultDestinationUuid destResponse)⟩

/-! ### C7: the end-to-end application-creation scenario -/

/-- **C7.** With servers `[{uuid:"s1"}]`, environments
`[{name:"prod",uuid:"e1"}]` and app image `"reg/app:latest"`, the
application-creation request body contains `project_uuid` (the project
id), `server_uuid = "s1"` (the first server's identifier),
`docker_registry_image_name = "reg/app"`,
`docker_registry_image_tag = "latest"` and `name = "app"` — the service
name `setupProjectInfrastructure` passes for the application step (see the
`StepTag.app "app"` entries in the orchestrator theorems). -/
theorem createApplicationRequest_scenario (pid : String)
    (destResponse : Option (List DestEntry)) :
    ∃ req, createApplicationRequest pid "app" "reg/app:latest"
        [⟨some "s1", none⟩] (some [⟨some "prod", some "e1", none⟩]) destResponse =
        Except.ok req ∧
      req.url = "/api/v1/applications/dockerimage" ∧
      lookupField req.payload "project_uuid" = some (JVal.str pid) ∧
      lookupField req.payload "server_uuid" = some (JVal.str "s1") ∧
      lookupField req.payload "docker_registry_image_name" = some (JVal.str "reg/app") ∧
      lookupField req.payload "docker_registry_image_tag" = some (JVal.str "latest") ∧
      lookupField req.payload "name" = some (JVal.str "app") :=
  ⟨_, rfl, rfl, rfl, rfl, rfl, rfl, rfl⟩

/-! ### C8: default-environment selection -/

theorem find?_first_isProdName :
    ∀ (l : List EnvEntry) (i : Nat) (x : EnvEntry),
      l.get? i = some x →
      (∀ j, j < i → isProdName? (l.get? j) = false) →
      isProdName x = true →
      l.find? isProdName = some x := by
  intro l
  induction l with
  | nil => intro i x hx _ _; simp at hx
  | cons e rest ih =>
    intro i x hx hprev hpx
    cases i with
    | zero =>
      simp only [List.get?_cons_zero, Option.some.injEq] at hx
      subst hx
      exact List.find?_cons_of_pos _ hpx
    | succ i' =>
      have he : isProdName e = false := by
        have := hprev 0 (Nat.succ_pos i')
        simpa [isProdName?] using this
      rw [List.find?_cons_of_neg _ (by rw [he]; exact Bool.false_ne_true)]
      simp only [List.get?_cons_succ] at hx
      refine ih i' x hx ?_ hpx
      intro j hj
      have := hprev (j + 1) (Nat.succ_lt_succ hj)
      simpa using this

/-- **C8 (amended).** `getDefaultEnvironment` selects the **first** entry
whose name is `"production"` or `"prod"` — the code expresses no
preference of `production` over `prod` — else the first entry of the
collection; on any failure (failed GET, non-array body, empty collection)
it returns the synthetic default `{name := "production", uuid := ""}`
instead of propagating the error, so its absence never aborts
provisioning. -/
theorem getDefaultEnvironment_spec :
    (getDefaultEnvironment none = ⟨"production", some ""⟩ ∧
     getDefaultEnvironment (some []) = ⟨"production", some ""⟩) ∧
    (∀ (l : List EnvEntry) (i : Nat) (x : EnvEntry),
      l.get? i = some x →
      (∀ j, j < i → isProdName? (l.get? j) = false) →
      isProdName x = true →
      getDefaultEnvironment (some l) = renderEnv x) ∧
    (∀ (e : EnvEntry) (rest : List EnvEntry),
      (∀ x ∈ e :: rest, isProdName x = false) →
      getDefaultEnvironment (some (e :: rest)) = renderEnv e) := by
  refine ⟨⟨rfl, rfl⟩, ?_, ?_⟩
  · intro l i x hx hprev hpx
    have hfind := find?_first_isProdName l i x hx hprev hpx
    match l, hx with
    | e :: rest, _ =>
      show renderEnv ((List.find? isProdName (e :: rest)).getD e) = renderEnv x
      rw [hfind]
      rfl
  · intro e rest hall
    have hfind : (e :: rest).find? isProdName = none := by
      rw [List.find?_eq_none]
      intro x hx
      rw [hall x hx]
      exact Bool.false_ne_true
    show renderEnv ((List.find? isProdName (e :: rest)).getD e) = renderEnv e
    rw [hfind]
    rfl

theorem getDefaultEnvironment_spec_witness :
    getDefaultEnvironment
        (some [⟨some "staging", some "u0", none⟩, ⟨some "prod", some "u1", none⟩]) =
      renderEnv ⟨some "prod", some "u1", none⟩ :=
  getDefaultEnvironment_spec.2.1
    [⟨some "staging", some "u0", none⟩, ⟨some "prod", some "u1", none⟩] 1
    ⟨some "prod", some "u1", none⟩ (by decide) (by decide) (by decide)

/-- **C8, counterexample to the claim as stated.** The claim requires the
preference `production > prod`; but `find?` returns the **first** entry
named either.  With `[{name:"prod",uuid:"u1"}, {name:"production",
uuid:"u2"}]` the code selects the `prod` entry (`uuid "u1"`), not the
`production` entry (`uuid "u2"`). -/
theorem getDefaultEnvironment_counterexample :
    getDefaultEnvironment
        (some [⟨some "prod", some "u1", none⟩, ⟨some "production", some "u2", none⟩]) =
      ⟨"prod", some "u1"⟩ ∧
    (⟨some "production", some "u2", none⟩ : EnvEntry) ∈
      [⟨some "prod", some "u1", none⟩, ⟨some "production", some "u2", none⟩] ∧
    ("prod" : String) ≠ "production" := by
  decide

/-! ## `setupProjectInfrastructure` (source: lines 1207-1346)

The orchestrator is embedded over an oracle assigning an outcome to each
service-creation call, in call order (each call's outcome is determined by
the HTTP layer verified above).  `createProjectNetwork` (lines 1144-1182)
and `linkServicesToNetwork` (lines 1184-1205) catch every failure
internally and never throw, so they appear as the network result argument
and the `link` step tag.  The run additionally records the ordered list of
steps it attempts. -/

/-- A provisioned service as the orchestrator records it (only its `id` is
consulted afterwards, for network linking). -/
structure CoolifySvc where
  id : Option String
deriving DecidableEq, Repr

/-- The orchestrator's options (source lines 1207-1213). -/
structure SetupOptions where
  includeSvelteKit : Bool
  dockerImage : Option String
  includeDatabase : Option String
  includeRedis : Bool
  includeServices : List String
deriving DecidableEq, Repr

/-- A step the orchestrator attempts. -/
inductive StepTag where
  | network
  | app (serviceName dockerImage : String)
  | pocketbase
  | mongodb
  | redis
  | litellm
  | qdrant
  | link
deriving DecidableEq, Repr

/-- Everything `setupProjectInfrastructure` can throw: the
`validateProjectId` error, or a rethrown service-creation error. -/
inductive SetupError (ε : Type) where
  | invalidProject
  | svc (e : ε)
deriving DecidableEq

/-- `t` is not the link step. -/
def nonLink : StepTag → Bool
  | StepTag.link => false
  | _ => true

/-- `options.includeSvelteKit && options.dockerImage` (source line 1232;
an empty-string image is falsy). -/
def appRequested (opts : SetupOptions) : Bool :=
  opts.includeSvelteKit && truthyS opts.dockerImage

/-- One non-fatal creation attempt (a `try/catch` around one service
creation, source lines 1259-1265 etc.): a success is appended to the
accumulated list, a failure leaves it unchanged. -/
def attemptSvc {ε : Type} (oracle : Nat → Except ε CoolifySvc) (k : Nat)
    (services : List CoolifySvc) : List CoolifySvc :=
  match oracle k with
  | Except.ok s => services ++ [s]
  | Except.error _ => services

/-- The aux-services loop (source lines 1290-1310): attempts `litellm` and
`qdrant` entries in list order, one oracle outcome per attempt; other
entries are ignored.  Returns this loop's created services, the next
oracle index, and the attempted steps. -/
def auxLoop {ε : Type} (oracle : Nat → Except ε CoolifySvc) :
    List String → Nat → List CoolifySvc × Nat × List StepTag
  | [], k => ([], k, [])
  | st :: rest, k =>
    if st == "litellm" then
      let r := auxLoop oracle rest (k + 1)
      ((oracle k).toOption.toList ++ r.1, r.2.1, StepTag.litellm :: r.2.2)
    else if st == "qdrant" then
      let r := auxLoop oracle rest (k + 1)
      ((oracle k).toOption.toList ++ r.1, r.2.1, StepTag.qdrant :: r.2.2)
    else
      auxLoop oracle rest k

/-- The ids submitted for network linking (source line 1314):
`services.map(s => s.id).filter(id => id)`. -/
def truthyIds (services : List CoolifySvc) : List String :=
  services.filterMap (fun s =>
    match s.id with
    | some v => if v == "" then none else some v
    | none => none)

/-- The database / cache / auxiliary / linking tail of the orchestrator
(source lines 1256-1326), starting at oracle index `k` with the services
and attempted steps accumulated so far.  Every step here is non-fatal. -/
def setupRest {ε : Type} (oracle : Nat → Except ε CoolifySvc)
    (networkResult : Option String) (opts : SetupOptions) (k : Nat)
    (services : List CoolifySvc) (tags : List StepTag) :
    Except (SetupError ε) (List CoolifySvc × Option String) × List StepTag :=
  let dbStep : List CoolifySvc × Nat × List StepTag :=
    if opts.includeDatabase == some "pocketbase" then
      (attemptSvc oracle k services, k + 1, tags ++ [StepTag.pocketbase])
    else if opts.includeDatabase == some "mongodb" then
      (attemptSvc oracle k services, k + 1, tags ++ [StepTag.mongodb])
    else (services, k, tags)
  let redisStep : List CoolifySvc × Nat × List StepTag :=
    if opts.includeRedis then
      (attemptSvc oracle dbStep.2.1 dbStep.1, dbStep.2.1 + 1, dbStep.2.2 ++ [StepTag.redis])
    else dbStep
  let aux := auxLoop oracle opts.includeServices redisStep.2.1
  let services' := redisStep.1 ++ aux.1
  let tags' := redisStep.2.2 ++ aux.2.2
  let tags'' :=
    if services'.length > 0 && (truthyIds services').length > 0 then
      tags' ++ [StepTag.link]
    else tags'
  (Except.ok (services', networkResult), tags'')

/-- `setupProjectInfrastructure` (source lines 1207-1346): validates the
project id, attempts network creation, then the application (fatal), then
the non-fatal tail.  Returns the outcome — thrown error, or created
services plus network — paired with the ordered list of attempted steps. -/
def setupProjectInfrastructure {ε : Type} (oracle : Nat → Except ε CoolifySvc)
    (networkResult : Option String) (projectId : String) (opts : SetupOptions) :
    Except (SetupError ε) (List CoolifySvc × Option String) × List StepTag :=
  -- validateProjectId (lines 431-448): a falsy (empty) id throws at once
  if projectId == "" then (Except.error SetupError.invalidProject, []) else
  let tags0 := [StepTag.network]
  if appRequested opts then
    let img := opts.dockerImage.getD ""
    let tags1 := tags0 ++ [StepTag.app "app" img]
    match oracle 0 with
    | Except.error e =>
      -- the application catch rethrows (line 1252); the outer catch
      -- (lines 1328-1344) sees the still-empty services list and rethrows
      if (([] : List CoolifySvc)).length > 0 then (Except.ok ([], none), tags1)
      else (Except.error (SetupError.svc e), tags1)
    | Except.ok s0 => setupRest oracle networkResult opts 1 [s0] tags1
  else setupRest oracle networkResult opts 0 [] tags0

/-! ### C4: a failing application step is fatal -/

/-- **C4.** If application provisioning is requested and fails, the
orchestration run stops immediately: the delivered outcome is exactly the
fatal error (the function rethrows it — the outer catch sees the
still-empty created-services list), no database, cache or auxiliary step
is ever attempted, and the services created strictly before the
application step are exactly none — the application is always the first
creation attempted, only the (never-throwing) network step precedes it. -/
theorem setupProjectInfrastructure_app_fatal {ε : Type}
    (oracle : Nat → Except ε CoolifySvc) (net : Option String)
    (pid : String) (opts : SetupOptions) (img : String) (e : ε)
    (hpid : (pid == "") = false)
    (happ : opts.includeSvelteKit = true)
    (himg : opts.dockerImage = some img)
    (himgT : (img == "") = false)
    (hfail : oracle 0 = Except.error e) :
    setupProjectInfrastructure oracle net pid opts =
      (Except.error (SetupError.svc e), [StepTag.network, StepTag.app "app" img]) := by
  have hreq : appRequested opts = true := by
    simp [appRequested, happ, himg, truthyS, himgT]
  simp [setupProjectInfrastructure, hpid, hreq, himg, hfail]

theorem setupProjectInfrastructure_app_fatal_witness :
    setupProjectInfrastructure (fun _ => (Except.error "boom" : Except String CoolifySvc))
        (some "net1") "p1"
        ⟨true, some "reg/app:latest", some "pocketbase", true, ["litellm", "qdrant"]⟩ =
      (Except.error (SetupError.svc "boom"),
       [StepTag.network, StepTag.app "app" "reg/app:latest"]) :=
  setupProjectInfrastructure_app_fatal (fun _ => Except.error "boom") (some "net1") "p1"
    ⟨true, some "reg/app:latest", some "pocketbase", true, ["litellm", "qdrant"]⟩
    "reg/app:latest" "boom" (by decide) rfl rfl (by decide) rfl

/-! ### C5: optional-resource failures are non-fatal -/

/-- Entries of `includeServices` that cause a creation attempt. -/
def auxPred (st : String) : Bool := st == "litellm" || st == "qdrant"

/-- The step tags of the aux-services loop, in list order. -/
def auxTags (l : List String) : List StepTag :=
  l.filterMap (fun st =>
    if st == "litellm" then some StepTag.litellm
    else if st == "qdrant" then some StepTag.qdrant else none)

/-- Number of creation attempts the non-fatal tail performs. -/
def restCount (opts : SetupOptions) : Nat :=
  (if opts.includeDatabase == some "pocketbase" || opts.includeDatabase == some "mongodb"
   then 1 else 0) +
  (if opts.includeRedis then 1 else 0) +
  opts.includeServices.countP auxPred

/-- Number of creation attempts of a whole run. -/
def attemptCount (opts : SetupOptions) : Nat :=
  (if appRequested opts then 1 else 0) + restCount opts

/-- The resource steps the options request, in attempt order. -/
def resourceTags (opts : SetupOptions) : List StepTag :=
  (if opts.includeDatabase == some "pocketbase" then [StepTag.pocketbase]
   else if opts.includeDatabase == some "mongodb" then [StepTag.mongodb] else []) ++
  (if opts.includeRedis then [StepTag.redis] else []) ++
  auxTags opts.includeServices

theorem range'_split (s m n : Nat) :
    List.range' s (m + n) = List.range' s m ++ List.range' (s + m) n := by
  have h := List.range'_append s m n 1
  simp only [Nat.one_mul] at h
  rw [Nat.add_comm m n]
  exact h.symm

theorem filterMap_oracle_split {ε : Type} (oracle : Nat → Except ε CoolifySvc)
    (s m n : Nat) :
    (List.range' s (m + n)).filterMap (fun j => (oracle j).toOption) =
      (List.range' s m).filterMap (fun j => (oracle j).toOption) ++
        (List.range' (s + m) n).filterMap (fun j => (oracle j).toOption) := by
  rw [range'_split, List.filterMap_append]

theorem fm_three {ε : Type} (oracle : Nat → Except ε CoolifySvc) (k a b c : Nat) :
    (List.range' k (a + b + c)).filterMap (fun j => (oracle j).toOption) =
      (List.range' k a).filterMap (fun j => (oracle j).toOption) ++
        ((List.range' (k + a) b).filterMap (fun j => (oracle j).toOption) ++
          (List.range' (k + a + b) c).filterMap (fun j => (oracle j).toOption)) := by
  rw [Nat.add_assoc a b c, filterMap_oracle_split oracle k a (b + c),
    filterMap_oracle_split oracle (k + a) b c]

theorem filterMap_oracle_one {ε : Type} (oracle : Nat → Except ε CoolifySvc) (k : Nat) :
    (List.range' k 1).filterMap (fun j => (oracle j).toOption) =
      (oracle k).toOption.toList := by
  cases h : oracle k <;> simp [List.range', h, Except.toOption]

theorem attemptSvc_eq {ε : Type} (oracle : Nat → Except ε CoolifySvc) (k : Nat)
    (services : List CoolifySvc) :
    attemptSvc oracle k services = services ++ (oracle k).toOption.toList := by
  cases h : oracle k <;> simp [attemptSvc, h, Except.toOption]

theorem auxLoop_spec {ε : Type} (oracle : Nat → Except ε CoolifySvc) :
    ∀ (l : List String) (k : Nat),
      auxLoop oracle l k =
        ((List.range' k (l.countP auxPred)).filterMap (fun j => (oracle j).toOption),
         k + l.countP auxPred,
         auxTags l) := by
  intro l
  induction l with
  | nil => intro k; simp [auxLoop, auxTags, List.countP_nil]
  | cons st rest ih =>
    intro k
    by_cases h1 : (st == "litellm") = true
    · have hc : (st :: rest).countP auxPred = rest.countP auxPred + 1 := by
        simp [List.countP_cons, auxPred, h1]
      have hfm : (List.range' k (rest.countP auxPred + 1)).filterMap
            (fun j => (oracle j).toOption) =
          (oracle k).toOption.toList ++
            (List.range' (k + 1) (rest.countP auxPred)).filterMap
              (fun j => (oracle j).toOption) := by
        rw [List.range'_succ, List.filterMap_cons]
        cases ho : oracle k <;> simp [ho, Except.toOption]
      have h1' : st = "litellm" := by simpa using h1
      have htag : auxTags (st :: rest) = StepTag.litellm :: auxTags rest := by
        simp [auxTags, List.filterMap_cons, h1']
      simp only [auxLoop, h1, if_pos]
      rw [ih (k + 1), hc, hfm, htag]
      have : k + (rest.countP auxPred + 1) = k + 1 + rest.countP auxPred := by omega
      rw [this]
    · by_cases h2 : (st == "qdrant") = true
      · have hc : (st :: rest).countP auxPred = rest.countP auxPred + 1 := by
          simp [List.countP_cons, auxPred, h2]
        have hfm : (List.range' k (rest.countP auxPred + 1)).filterMap
              (fun j => (oracle j).toOption) =
            (oracle k).toOption.toList ++
              (List.range' (k + 1) (rest.countP auxPred)).filterMap
                (fun j => (oracle j).toOption) := by
          rw [List.range'_succ, List.filterMap_cons]
          cases ho : oracle k <;> simp [ho, Except.toOption]
        have h1' : ¬ st = "litellm" := by simpa using h1
        have h2' : st = "qdrant" := by simpa using h2
        have htag : auxTags (st :: rest) = StepTag.qdrant :: auxTags rest := by
          simp [auxTags, List.filterMap_cons, h1', h2']
        simp only [auxLoop, h1, h2, if_pos, if_neg, Bool.false_eq_true, if_false]
        rw [ih (k + 1), hc, hfm, htag]
        have : k + (rest.countP auxPred + 1) = k + 1 + rest.countP auxPred := by omega
        rw [this]
      · have hc : (st :: rest).countP auxPred = rest.countP auxPred := by
          simp [List.countP_cons, auxPred, h1, h2]
        have h1' : ¬ st = "litellm" := by simpa using h1
        have h2' : ¬ st = "qdrant" := by simpa using h2
        have htag : auxTags (st :: rest) = auxTags rest := by
          simp [auxTags, List.filterMap_cons, h1', h2']
        simp only [auxLoop, h1, h2, Bool.false_eq_true, if_false]
        rw [ih k, hc, htag]

theorem filter_nonLink_auxTags (l : List String) :
    (auxTags l).filter nonLink = auxTags l := by
  induction l with
  | nil => rfl
  | cons st rest ih =>
    simp only [auxTags, List.filterMap_cons] at ih ⊢
    by_cases h1 : (st == "litellm") = true
    · simp only [h1, if_pos, List.filter_cons]
      rw [ih]
      rfl
    · by_cases h2 : (st == "qdrant") = true
      · simp only [h1, h2, Bool.false_eq_true, if_false, if_pos, List.filter_cons]
        rw [ih]
        rfl
      · simp only [h1, h2, Bool.false_eq_true, if_false]
        exact ih

theorem filter_nonLink_link_if (svcs' : List CoolifySvc) (tg : List StepTag) :
    (if svcs'.length > 0 && (truthyIds svcs').length > 0 then tg ++ [StepTag.link]
     else tg).filter nonLink = tg.filter nonLink := by
  by_cases h : (svcs'.length > 0 && (truthyIds svcs').length > 0) = true
  · rw [if_pos h, List.filter_append]
    simp [nonLink]
  · rw [if_neg h]

/-- Characterization of the non-fatal tail: it always returns `ok`, its
services are the accumulated ones followed by exactly the successful
creations among oracle indices `k, k+1, …` (one per requested resource, a
failure contributing nothing), and its non-link attempted steps are the
requested resources, in order, independent of any outcome. -/
theorem setupRest_spec {ε : Type} (oracle : Nat → Except ε CoolifySvc)
    (net : Option String) (opts : SetupOptions) (k : Nat)
    (services : List CoolifySvc) (tags : List StepTag) :
    (setupRest oracle net opts k services tags).1 =
      Except.ok (services ++
        (List.range' k (restCount opts)).filterMap (fun j => (oracle j).toOption), net) ∧
    (setupRest oracle net opts k services tags).2.filter nonLink =
      tags.filter nonLink ++ resourceTags opts := by
  by_cases hdb1 : (opts.includeDatabase == some "pocketbase") = true
  · by_cases hr : opts.includeRedis = true
    · simp only [setupRest]
      rw [if_pos hdb1, if_pos hr, auxLoop_spec oracle]
      constructor
      · have hrc : restCount opts = 1 + 1 + opts.includeServices.countP auxPred := by
          simp [restCount, hdb1, hr]
        rw [hrc, fm_three oracle k 1 1, filterMap_oracle_one, filterMap_oracle_one,
          attemptSvc_eq oracle k, attemptSvc_eq oracle (k + 1)]
        simp [List.append_assoc]
      · rw [filter_nonLink_link_if]
        have hres : resourceTags opts =
            [StepTag.pocketbase] ++ [StepTag.redis] ++ auxTags opts.includeServices := by
          simp [resourceTags, hdb1, hr]
        rw [hres]
        simp [List.filter_append, filter_nonLink_auxTags, nonLink]
    · simp only [setupRest]
      rw [if_pos hdb1, if_neg hr, auxLoop_spec oracle]
      constructor
      · have hrc : restCount opts = 1 + 0 + opts.includeServices.countP auxPred := by
          simp [restCount, hdb1, hr]
        rw [hrc, fm_three oracle k 1 0, filterMap_oracle_one, attemptSvc_eq oracle k]
        simp [List.append_assoc, List.range']
      · rw [filter_nonLink_link_if]
        have hres : resourceTags opts =
            [StepTag.pocketbase] ++ ([] : List StepTag) ++ auxTags opts.includeServices := by
          simp [resourceTags, hdb1, hr]
        rw [hres]
        simp [List.filter_append, filter_nonLink_auxTags, nonLink]
  · by_cases hdb2 : (opts.includeDatabase == some "mongodb") = true
    · by_cases hr : opts.includeRedis = true
      · simp only [setupRest]
        rw [if_neg hdb1, if_pos hdb2, if_pos hr, auxLoop_spec oracle]
        constructor
        · have hrc : restCount opts = 1 + 1 + opts.includeServices.countP auxPred := by
            simp [restCount, hdb2, hr]
          rw [hrc, fm_three oracle k 1 1, filterMap_oracle_one, filterMap_oracle_one,
            attemptSvc_eq oracle k, attemptSvc_eq oracle (k + 1)]
          simp [List.append_assoc]
        · rw [filter_nonLink_link_if]
          have hres : resourceTags opts =
              [StepTag.mongodb] ++ [StepTag.redis] ++ auxTags opts.includeServices := by
            simp only [resourceTags, hr, if_pos]
            rw [if_neg hdb1]
            rw [if_pos hdb2]
          rw [hres]
          simp [List.filter_append, filter_nonLink_auxTags, nonLink]
      · simp only [setupRest]
        rw [if_neg hdb1, if_pos hdb2, if_neg hr, auxLoop_spec oracle]
        constructor
        · have hrc : restCount opts = 1 + 0 + opts.includeServices.countP auxPred := by
            simp [restCount, hdb2, hr]
          rw [hrc, fm_three oracle k 1 0, filterMap_oracle_one, attemptSvc_eq oracle k]
          simp [List.append_assoc, List.range']
        · rw [filter_nonLink_link_if]
          have hres : resourceTags opts =
              [StepTag.mongodb] ++ ([] : List StepTag) ++ auxTags opts.includeServices := by
            simp only [resourceTags, hr, Bool.false_eq_true, if_false]
            rw [if_neg hdb1]
            rw [if_pos hdb2]
          rw [hres]
          simp [List.filter_append, filter_nonLink_auxTags, nonLink]
    · by_cases hr : opts.includeRedis = true
      · simp only [setupRest]
        rw [if_neg hdb1, if_neg hdb2, if_pos hr, auxLoop_spec oracle]
        constructor
        · have hrc : restCount opts = 0 + 1 + opts.includeServices.countP auxPred := by
            simp [restCount, hdb1, hdb2, hr]
          rw [hrc, fm_three oracle k 0 1, filterMap_oracle_one, attemptSvc_eq oracle k]
          simp [List.append_assoc, List.range']
        · rw [filter_nonLink_link_if]
          have hres : resourceTags opts =
              ([] : List StepTag) ++ [StepTag.redis] ++ auxTags opts.includeServices := by
            simp only [resourceTags, hr, if_pos]
            rw [if_neg hdb1, if_neg hdb2]
          rw [hres]
          simp [List.filter_append, filter_nonLink_auxTags, nonLink]
      · simp only [setupRest]
        rw [if_neg hdb1, if_neg hdb2, if_neg hr, auxLoop_spec oracle]
        constructor
        · have hrc : restCount opts = 0 + 0 + opts.includeServices.countP auxPred := by
            simp [restCount, hdb1, hdb2, hr]
          rw [hrc]
          simp [List.range']
        · rw [filter_nonLink_link_if]
          have hres : resourceTags opts =
              ([] : List StepTag) ++ ([] : List StepTag) ++ auxTags opts.includeServices := by
            simp only [resourceTags, hr, Bool.false_eq_true, if_false]
            rw [if_neg hdb1, if_neg hdb2]
          rw [hres]
          simp [List.filter_append, filter_nonLink_auxTags, nonLink]

/-- **C5.** Database, cache and auxiliary-service failures are non-fatal.
Whenever the application step is not requested or succeeds, the
orchestrator returns a result to the caller (never throws); the returned
service list consists of exactly the successful creations in attempt order
— a failed creation contributes nothing, leaving the accumulated list
unchanged — and the sequence of creation steps attempted (everything but
the best-effort link step) is fully determined by the options,
independent of any failures, so a failure never prevents the next
requested resource from being attempted. -/
theorem setupProjectInfrastructure_nonfatal {ε : Type}
    (oracle : Nat → Except ε CoolifySvc) (net : Option String)
    (pid : String) (opts : SetupOptions)
    (hpid : (pid == "") = false)
    (happOk : appRequested opts = false ∨ ∃ s0, oracle 0 = Except.ok s0) :
    (setupProjectInfrastructure oracle net pid opts).1 =
      Except.ok ((List.range (attemptCount opts)).filterMap
        (fun j => (oracle j).toOption), net) ∧
    (setupProjectInfrastructure oracle net pid opts).2.filter nonLink =
      StepTag.network ::
        ((if appRequested opts then [StepTag.app "app" (opts.dockerImage.getD "")]
          else []) ++ resourceTags opts) := by
  by_cases happ : appRequested opts = true
  · obtain ⟨s0, hok⟩ : ∃ s0, oracle 0 = Except.ok s0 := by
      rcases happOk with h | h
      · rw [happ] at h; exact absurd h.symm Bool.false_ne_true
      · exact h
    have hred : setupProjectInfrastructure oracle net pid opts =
        setupRest oracle net opts 1 [s0]
          [StepTag.network, StepTag.app "app" (opts.dockerImage.getD "")] := by
      simp [setupProjectInfrastructure, hpid, happ, hok]
    obtain ⟨h1, h2⟩ := setupRest_spec oracle net opts 1 [s0]
      [StepTag.network, StepTag.app "app" (opts.dockerImage.getD "")]
    rw [hred]
    constructor
    · rw [h1]
      have hac : attemptCount opts = restCount opts + 1 := by
        simp [attemptCount, happ]
        omega
      rw [List.range_eq_range', hac]
      rw [show List.range' 0 (restCount opts + 1) =
          0 :: List.range' 1 (restCount opts) from List.range'_succ 0 (restCount opts) 1]
      rw [List.filterMap_cons]
      simp [hok, Except.toOption]
    · rw [h2]
      simp [happ, nonLink]
  · have hred : setupProjectInfrastructure oracle net pid opts =
        setupRest oracle net opts 0 [] [StepTag.network] := by
      simp [setupProjectInfrastructure, hpid, happ]
    obtain ⟨h1, h2⟩ := setupRest_spec oracle net opts 0 [] [StepTag.network]
    rw [hred]
    constructor
    · rw [h1]
      have hac : attemptCount opts = restCount opts := by
        simp [attemptCount, happ]
      rw [List.range_eq_range', hac]
      simp
    · rw [h2]
      simp [happ, nonLink]

theorem setupProjectInfrastructure_nonfatal_witness :
    (setupProjectInfrastructure
        (fun j => if j = 0 then (Except.ok ⟨some "id0"⟩ : Except String CoolifySvc)
          else if j = 2 then Except.ok ⟨some "id2"⟩
          else Except.error "down")
        (some "n") "p1" ⟨true, some "img", some "pocketbase", true, ["litellm"]⟩).1 =
      Except.ok ((List.range (attemptCount
          ⟨true, some "img", some "pocketbase", true, ["litellm"]⟩)).filterMap
        (fun j => ((if j = 0 then (Except.ok ⟨some "id0"⟩ : Except String CoolifySvc)
          else if j = 2 then Except.ok ⟨some "id2"⟩
          else Except.error "down")).toOption), some "n") ∧
    (setupProjectInfrastructure
        (fun j => if j = 0 then (Except.ok ⟨some "id0"⟩ : Except String CoolifySvc)
          else if j = 2 then Except.ok ⟨some "id2"⟩
          else Except.error "down")
        (some "n") "p1" ⟨true, some "img", some "pocketbase", true, ["litellm"]⟩).2.filter
        nonLink =
      StepTag.network ::
        ((if appRequested ⟨true, some "img", some "pocketbase", true, ["litellm"]⟩
          then [StepTag.app "app"
            ((⟨true, some "img", some "pocketbase", true,
              ["litellm"]⟩ : SetupOptions).dockerImage.getD "")]
          else []) ++ resourceTags ⟨true, some "img", some "pocketbase", true, ["litellm"]⟩) :=
  setupProjectInfrastructure_nonfatal
    (fun j => if j = 0 then (Except.ok ⟨some "id0"⟩ : Except String CoolifySvc)
      else if j = 2 then Except.ok ⟨some "id2"⟩
      else Except.error "down")
    (some "n") "p1" ⟨true, some "img", some "pocketbase", true, ["litellm"]⟩
    (by decide) (Or.inr ⟨⟨some "id0"⟩, rfl⟩)

end SkitFastCli
